import Mathlib

/-!
Verification of the device transport and telemetry plane of an
indoor-cycling training application (Rust backend, `src-tauri`).

The Rust sources are shallowly embedded: machine integers (`u8`, `u16`,
`u32`) become `Nat` with explicit `% 2^w` wrapping where the source wraps;
`f32`/`f64` arithmetic on sensor rates is modelled exactly over `ℚ`;
`Option`-returning fallible code returns `Option`; stateful decoders
(`&mut self`) become functions `State → Input → Output × State`.
Clock reads (`Instant::now`, epoch milliseconds) are not part of any
verified property and are omitted from the embedded reading type.
-/

/-! ## Byte-level helpers -/

/-- Little-endian `u16` from two bytes (`u16::from_le_bytes([lo, hi])`). -/
def u16le (lo hi : Nat) : Nat := lo + 256 * hi

/-- Little-endian `u32` from four bytes (`u32::from_le_bytes`). -/
def u32le (b0 b1 b2 b3 : Nat) : Nat :=
  b0 + 256 * b1 + 65536 * b2 + 16777216 * b3

/-- Embeds `u16::wrapping_sub` on values already reduced below `2^16`. -/
def wrapping_sub16 (a b : Nat) : Nat := (a + 65536 - b) % 65536

/-- Embeds `u32::wrapping_sub` on values already reduced below `2^32`. -/
def wrapping_sub32 (a b : Nat) : Nat := (a + 4294967296 - b) % 4294967296

/-- XOR fold used for the ANT frame checksum
(`packet.iter().fold(0u8, |acc, &b| acc ^ b)`). -/
def xorFold (l : List Nat) : Nat := l.foldl (fun a b => a ^^^ b) 0

/-! ## Short-range wire codec (`device/ant_usb.rs`) -/

/-- The `ANT_SYNC` sync byte. -/
def ANT_SYNC : Nat := 0xA4

/-- The `AntMessage` struct: `msg_id : u8`, `data : Vec<u8>`. -/
structure AntMessage where
  msg_id : Nat
  data : List Nat
deriving DecidableEq, Repr

/-- The `u8`/`Vec<u8>` typing invariants of `AntMessage`, plus the length
bound under which `data.len() as u8` is lossless. -/
def validMsg (m : AntMessage) : Prop :=
  m.msg_id < 256 ∧ m.data.length ≤ 255 ∧ ∀ b ∈ m.data, b < 256

instance (m : AntMessage) : Decidable (validMsg m) := by
  unfold validMsg; infer_instance

/-- Embeds `encode_message`: `SYNC | LEN | MSG_ID | DATA | XOR_CKSUM`.
`LEN` is `msg.data.len() as u8`, hence the `% 256`. -/
def encode_message (m : AntMessage) : List Nat :=
  let len := m.data.length % 256
  let packet := ANT_SYNC :: len :: m.msg_id :: m.data
  packet ++ [xorFold packet]

/-- One step plus recursion of the `decode_all_messages` loop: scan for
the next sync byte, parse `LEN`/`MSG_ID`, require the whole frame present,
verify the XOR checksum, emit on success, and always advance past the
frame. The Rust loop indexes the original buffer at a moving `pos`; since
every access is relative to `pos`, the embedding recurses on the remaining
suffix. The structural `fuel` argument only bounds the number of loop
iterations; every iteration that recurses consumes at least four bytes, so
any `fuel ≥ buf.length` computes the loop's result
(`decode_go_fuel_irrel`). -/
def decode_go (fuel : Nat) (buf : List Nat) : List AntMessage :=
  match fuel with
  | 0 => []
  | fuel + 1 =>
    match buf.findIdx? (fun b => b == ANT_SYNC) with
    | none => []
    | some i =>
      let rest := buf.drop i
      if rest.length < 3 then []
      else
        let len := rest.getD 1 0
        let msg_id := rest.getD 2 0
        if rest.length < 3 + len + 1 then []
        else
          let data := (rest.drop 3).take len
          let expected := xorFold (rest.take (3 + len))
          let actual := rest.getD (3 + len) 0
          let tail := rest.drop (3 + len + 1)
          if expected == actual then
            ⟨msg_id, data⟩ :: decode_go fuel tail
          else
            decode_go fuel tail

/-- Embeds `decode_all_messages`: run the decode loop; `buf.length` fuel is
always enough. -/
def decode_all_messages (buf : List Nat) : List AntMessage :=
  decode_go buf.length buf

/-! ## C1: wire-codec round-trip -/

/-- Any fuel at least the buffer length computes the decode loop's result:
each recursing iteration consumes at least four bytes of the buffer. -/
theorem decode_go_fuel_irrel (f₁ f₂ : Nat) (buf : List Nat)
    (h₁ : buf.length ≤ f₁) (h₂ : buf.length ≤ f₂) :
    decode_go f₁ buf = decode_go f₂ buf := by
  induction f₁ generalizing f₂ buf with
  | zero =>
    have hb : buf = [] := List.eq_nil_of_length_eq_zero (Nat.le_zero.mp h₁)
    subst hb
    cases f₂ <;> simp [decode_go]
  | succ a ih =>
    cases f₂ with
    | zero =>
      have hb : buf = [] := List.eq_nil_of_length_eq_zero (Nat.le_zero.mp h₂)
      subst hb
      simp [decode_go]
    | succ b =>
      simp only [decode_go]
      cases hfind : buf.findIdx? (fun x => x == ANT_SYNC) with
      | none => simp
      | some i =>
        simp only []
        by_cases h3 : (buf.drop i).length < 3
        · simp only [if_pos h3]
        · simp only [if_neg h3]
          by_cases htot : (buf.drop i).length < 3 + (buf.drop i).getD 1 0 + 1
          · simp only [if_pos htot]
          · simp only [if_neg htot]
            have hlen : ((buf.drop i).drop (3 + (buf.drop i).getD 1 0 + 1)).length ≤ a
                ∧ ((buf.drop i).drop (3 + (buf.drop i).getD 1 0 + 1)).length ≤ b := by
              simp only [List.length_drop] at h3 htot ⊢
              omega
            by_cases hchk : (xorFold ((buf.drop i).take (3 + (buf.drop i).getD 1 0))
                == (buf.drop i).getD (3 + (buf.drop i).getD 1 0) 0) = true
            · simp only [if_pos hchk]
              rw [ih _ _ hlen.1 hlen.2]
            · simp only [if_neg hchk]
              exact ih _ _ hlen.1 hlen.2

theorem decode_all_messages_nil : decode_all_messages [] = [] := rfl

/-- Decoding a buffer that starts with one well-formed encoded frame yields
that frame's message followed by the decode of the remaining bytes. -/
theorem decode_all_messages_cons (m : AntMessage) (rest : List Nat) (hv : validMsg m) :
    decode_all_messages (encode_message m ++ rest) = m :: decode_all_messages rest := by
  obtain ⟨hid, hlen, hbytes⟩ := hv
  have hmod : m.data.length % 256 = m.data.length := Nat.mod_eq_of_lt (by omega)
  have hA : encode_message m ++ rest
      = (ANT_SYNC :: m.data.length :: m.msg_id :: m.data) ++
        (xorFold (ANT_SYNC :: m.data.length :: m.msg_id :: m.data) :: rest) := by
    simp [encode_message, hmod]
  rw [hA]
  generalize hC : xorFold (ANT_SYNC :: m.data.length :: m.msg_id :: m.data) = chk
  set A : List Nat := ANT_SYNC :: m.data.length :: m.msg_id :: m.data with hAdef
  have hAlen : A.length = 3 + m.data.length := by simp [hAdef]; omega
  have hblen : (A ++ (chk :: rest)).length = (3 + m.data.length + rest.length) + 1 := by
    simp [hAdef]; omega
  have hfind : (A ++ (chk :: rest)).findIdx? (fun b => b == ANT_SYNC) = some 0 := by
    simp [hAdef, List.findIdx?_cons, ANT_SYNC]
  have hg1 : (A ++ (chk :: rest)).getD 1 0 = m.data.length := by
    simp [hAdef]
  have hg2 : (A ++ (chk :: rest)).getD 2 0 = m.msg_id := by
    simp [hAdef]
  have hdrop3 : (A ++ (chk :: rest)).drop 3 = m.data ++ (chk :: rest) := by
    simp [hAdef]
  have htake : (A ++ (chk :: rest)).take (3 + m.data.length) = A :=
    List.take_left' hAlen
  have hactual : (A ++ (chk :: rest)).getD (3 + m.data.length) 0 = chk := by
    rw [List.getD_append_right _ _ _ _ (by omega)]
    simp [hAlen]
  have htail : (A ++ (chk :: rest)).drop (3 + m.data.length + 1) = rest := by
    have hre : A ++ (chk :: rest) = (A ++ [chk]) ++ rest := by simp
    rw [hre, List.drop_left' (by simp [hAlen])]
  have hc3 : ¬ ((A ++ (chk :: rest)).length < 3) := by rw [hblen]; omega
  have hc4 : ¬ ((A ++ (chk :: rest)).length < 3 + m.data.length + 1) := by
    rw [hblen]; omega
  have hdata : (m.data ++ (chk :: rest)).take m.data.length = m.data :=
    List.take_left' rfl
  simp only [decode_all_messages, hblen]
  rw [decode_go.eq_2, hfind]
  simp only [List.drop_zero, hg1, hg2, hdrop3, htake, hactual, htail,
    if_neg hc3, if_neg hc4, hC, if_pos (beq_self_eq_true chk), hdata]
  have hrec : decode_go (3 + m.data.length + rest.length) rest
      = decode_go rest.length rest :=
    decode_go_fuel_irrel _ _ rest (by omega) (le_refl _)
  rw [hrec]

/-- C1. For every message `(msg_id, data)` with `data.length ≤ 255`,
decoding the bytes produced by `encode_message` yields back exactly the one
record; and decoding the concatenation of several encoded frames returns
all of them, in order. -/
theorem wire_codec_roundtrip :
    (∀ m : AntMessage, validMsg m →
      decode_all_messages (encode_message m) = [m]) ∧
    (∀ msgs : List AntMessage, (∀ m ∈ msgs, validMsg m) →
      decode_all_messages (msgs.map encode_message).flatten = msgs) := by
  constructor
  · intro m hv
    have := decode_all_messages_cons m [] hv
    simpa using this
  · intro msgs
    induction msgs with
    | nil => intro _; simp [decode_all_messages_nil]
    | cons m ms ih =>
      intro hv
      have hm : validMsg m := hv m (by simp)
      have hms : ∀ x ∈ ms, validMsg x := fun x hx => hv x (by simp [hx])
      simp only [List.map_cons, List.flatten_cons]
      rw [decode_all_messages_cons m _ hm, ih hms]

/-- Witness for C1: the spec's concrete frame `{msg_id = 0x4A, data = [0]}`
and a two-frame concatenation. -/
theorem wire_codec_roundtrip_witness :
    decode_all_messages (encode_message ⟨0x4A, [0x00]⟩) = [⟨0x4A, [0x00]⟩] ∧
    decode_all_messages
        (([⟨0x4A, [0x00]⟩, ⟨0x4E, [1, 2, 3]⟩] : List AntMessage).map
          encode_message).flatten
      = [⟨0x4A, [0x00]⟩, ⟨0x4E, [1, 2, 3]⟩] :=
  ⟨wire_codec_roundtrip.1 _ (by decide), wire_codec_roundtrip.2 _ (by decide)⟩

/-! ## Unified reading model (`device/types.rs`) -/

/-- The `CommandSource` enum. -/
inductive CommandSource where
  | ZoneControl
  | Manual
deriving DecidableEq, Repr

/-- The `DeviceType` enum. -/
inductive DeviceType where
  | HeartRate
  | Power
  | CadenceSpeed
  | FitnessTrainer
deriving DecidableEq, Repr

/-- The `Transport` enum. -/
inductive Transport where
  | Ble
  | AntPlus
deriving DecidableEq, Repr

/-- The `ConnectionStatus` enum. -/
inductive ConnectionStatus where
  | Disconnected
  | Connecting
  | Connected
  | Reconnecting
deriving DecidableEq, Repr

/-- The `SensorReading` enum. The `timestamp : Option<Instant>` and
`epoch_ms : u64` fields are clock reads (`Instant::now()` /
`SystemTime::now()`) and are omitted; rates computed in `f32`/`f64` are
carried exactly as rationals. -/
inductive SensorReading where
  | Power (watts : Nat) (device_id : String) (pedal_balance : Option Nat)
  | HeartRate (bpm : Nat) (device_id : String)
  | Cadence (rpm : ℚ) (device_id : String)
  | Speed (kmh : ℚ) (device_id : String)
  | TrainerCommand (target_watts : Nat) (source : CommandSource)
deriving DecidableEq, Repr

/-- Embeds `SensorReading::device_id`; `TrainerCommand` yields `""`. -/
def SensorReading.device_id : SensorReading → String
  | .Power _ d _ => d
  | .HeartRate _ d => d
  | .Cadence _ d => d
  | .Speed _ d => d
  | .TrainerCommand _ _ => ""

/-- Embeds `SensorReading::device_type`. -/
def SensorReading.device_type : SensorReading → DeviceType
  | .Power _ _ _ => .Power
  | .HeartRate _ _ => .HeartRate
  | .Cadence _ _ => .CadenceSpeed
  | .Speed _ _ => .CadenceSpeed
  | .TrainerCommand _ _ => .FitnessTrainer

/-- Embeds `is_dominated`: the reading comes from a non-primary device for its
type. The `HashMap<DeviceType, String>` is modelled as its lookup
function. -/
def is_dominated (primaries : DeviceType → Option String)
    (reading : SensorReading) : Bool :=
  match primaries reading.device_type with
  | some primary_id =>
    !(reading.device_id.isEmpty) && reading.device_id ≠ primary_id
  | none => false

/-! ## Stateful ANT+ decoders (`device/ant_protocol.rs`) -/

/-- An 8-byte ANT+ data page (`data : &[u8; 8]`). -/
structure Page8 where
  b0 : Nat
  b1 : Nat
  b2 : Nat
  b3 : Nat
  b4 : Nat
  b5 : Nat
  b6 : Nat
  b7 : Nat
deriving DecidableEq, Repr

/-- The `AntDecoder` struct (previous-value state for delta decoding);
`AntDecoder::new()` is `Default::default()`, i.e. all zeros / false. -/
structure AntDecoder where
  prev_power_event_count : Nat := 0
  prev_power_accumulated : Nat := 0
  power_initialized : Bool := false
  prev_cadence_event_time : Nat := 0
  prev_cadence_revs : Nat := 0
  cadence_initialized : Bool := false
  prev_speed_event_time : Nat := 0
  prev_speed_revs : Nat := 0
  speed_initialized : Bool := false
deriving DecidableEq, Repr

def AntDecoder.new : AntDecoder := {}

/-- Embeds `AntDecoder::decode_power` (page 0x10 only). The Rust method mutates
`self` and returns `Option<SensorReading>`; the embedding returns the pair
(result, updated state). -/
def decode_power (s : AntDecoder) (data : Page8) (device_id : String) :
    Option SensorReading × AntDecoder :=
  let page := data.b0
  if page ≠ 0x10 then (none, s)
  else
    let event_count := data.b1
    let accumulated := u16le data.b4 data.b5
    let instant_power := u16le data.b6 data.b7
    let pedal_power_byte := data.b2
    let pedal_balance :=
      if pedal_power_byte &&& 0x80 ≠ 0 then some (pedal_power_byte &&& 0x7F)
      else none
    if !s.power_initialized then
      (some (.Power instant_power device_id pedal_balance),
       { s with prev_power_event_count := event_count,
                prev_power_accumulated := accumulated,
                power_initialized := true })
    else if event_count = s.prev_power_event_count then
      (none, s)
    else
      (some (.Power instant_power device_id pedal_balance),
       { s with prev_power_event_count := event_count,
                prev_power_accumulated := accumulated })

/-- Embeds `AntDecoder::decode_cadence`; `f32` rate arithmetic is carried exactly
in `ℚ`. -/
def decode_cadence (s : AntDecoder) (data : Page8) (device_id : String) :
    Option SensorReading × AntDecoder :=
  let event_time := u16le data.b4 data.b5
  let revs := u16le data.b6 data.b7
  if !s.cadence_initialized then
    (none, { s with prev_cadence_event_time := event_time,
                    prev_cadence_revs := revs,
                    cadence_initialized := true })
  else
    let time_diff := wrapping_sub16 event_time s.prev_cadence_event_time
    let rev_diff := wrapping_sub16 revs s.prev_cadence_revs
    let s' := { s with prev_cadence_event_time := event_time,
                       prev_cadence_revs := revs }
    if time_diff = 0 ∨ rev_diff = 0 then (none, s')
    else
      let time_secs : ℚ := (time_diff : ℚ) / 1024
      let rpm : ℚ := ((rev_diff : ℚ) / time_secs) * 60
      if rpm > 200 ∨ rpm < 0 then (none, s')
      else (some (.Cadence rpm device_id), s')

/-- Embeds `AntDecoder::decode_speed`; `f64` rate arithmetic is carried exactly
in `ℚ`. -/
def decode_speed (s : AntDecoder) (data : Page8) (device_id : String)
    (wheel_circumference_mm : Nat) :
    Option SensorReading × AntDecoder :=
  let event_time := u16le data.b4 data.b5
  let revs := u16le data.b6 data.b7
  if !s.speed_initialized then
    (none, { s with prev_speed_event_time := event_time,
                    prev_speed_revs := revs,
                    speed_initialized := true })
  else
    let time_diff := wrapping_sub16 event_time s.prev_speed_event_time
    let rev_diff := wrapping_sub16 revs s.prev_speed_revs
    let s' := { s with prev_speed_event_time := event_time,
                       prev_speed_revs := revs }
    if time_diff = 0 ∨ rev_diff = 0 then (none, s')
    else
      let time_secs : ℚ := (time_diff : ℚ) / 1024
      let distance_m : ℚ := (rev_diff : ℚ) * (wheel_circumference_mm : ℚ) / 1000
      let kmh : ℚ := (distance_m / time_secs) * (36 / 10)
      if kmh > 120 ∨ kmh < 0 then (none, s')
      else (some (.Speed kmh device_id), s')

/-! ## C2: power decoder -/

/-- C2. On page 0x10 the first-ever call emits `u16_le(bytes 6..7)` watts;
afterwards a reading is emitted exactly when byte 1 (event count) changed;
`pedal_balance` is `byte2 & 0x7F` when bit 7 of byte 2 is set, else absent.
Includes the spec's concrete two-page scenario. -/
theorem power_decoder_behavior :
    (∀ (s : AntDecoder) (d : Page8) (id : String), d.b0 = 0x10 →
      s.power_initialized = false →
      (decode_power s d id).1 = some (.Power (u16le d.b6 d.b7) id
        (if d.b2 &&& 0x80 ≠ 0 then some (d.b2 &&& 0x7F) else none))) ∧
    (∀ (s : AntDecoder) (d : Page8) (id : String), d.b0 = 0x10 →
      s.power_initialized = true →
      ((d.b1 = s.prev_power_event_count → (decode_power s d id).1 = none) ∧
       (d.b1 ≠ s.prev_power_event_count →
        (decode_power s d id).1 = some (.Power (u16le d.b6 d.b7) id
          (if d.b2 &&& 0x80 ≠ 0 then some (d.b2 &&& 0x7F) else none))))) ∧
    (∀ id : String,
      (decode_power AntDecoder.new ⟨0x10, 0x01, 0, 0, 0, 0, 0xC8, 0⟩ id).1
        = some (.Power 200 id none) ∧
      (decode_power
          (decode_power AntDecoder.new ⟨0x10, 0x01, 0, 0, 0, 0, 0xC8, 0⟩ id).2
          ⟨0x10, 0x02, 0x85, 0, 0xC8, 0, 0xFA, 0⟩ id).1
        = some (.Power 250 id (some 5))) := by
  refine ⟨?_, ?_, ?_⟩
  · intro s d id h0 hinit
    simp [decode_power, h0, hinit]
  · intro s d id h0 hinit
    constructor
    · intro heq
      simp [decode_power, h0, hinit, heq]
    · intro hne
      simp [decode_power, h0, hinit, hne]
  · intro id
    exact ⟨rfl, rfl⟩

/-- Witness for C2 at a concrete state and page. -/
theorem power_decoder_behavior_witness :
    (decode_power AntDecoder.new ⟨0x10, 5, 0xB2, 0, 0, 0, 180, 0⟩ "w").1
      = some (.Power (u16le 180 0) "w"
          (if 0xB2 &&& 0x80 ≠ 0 then some (0xB2 &&& 0x7F) else none)) :=
  power_decoder_behavior.1 AntDecoder.new ⟨0x10, 5, 0xB2, 0, 0, 0, 180, 0⟩ "w"
    (by decide) (by decide)

/-! ## C3: counter wrap-around invariance -/

/-- C3. Two post-initialization cadence (resp. speed) calls whose wrapping
event-time and revolution deltas agree produce the same emitted reading,
whether or not the 16-bit counters wrapped through 0xFFFF. -/
theorem counter_wrap_invariance :
    (∀ (s₁ s₂ : AntDecoder) (d₁ d₂ : Page8) (id : String),
      s₁.cadence_initialized = true → s₂.cadence_initialized = true →
      wrapping_sub16 (u16le d₁.b4 d₁.b5) s₁.prev_cadence_event_time
        = wrapping_sub16 (u16le d₂.b4 d₂.b5) s₂.prev_cadence_event_time →
      wrapping_sub16 (u16le d₁.b6 d₁.b7) s₁.prev_cadence_revs
        = wrapping_sub16 (u16le d₂.b6 d₂.b7) s₂.prev_cadence_revs →
      (decode_cadence s₁ d₁ id).1 = (decode_cadence s₂ d₂ id).1) ∧
    (∀ (s₁ s₂ : AntDecoder) (d₁ d₂ : Page8) (id : String) (circ : Nat),
      s₁.speed_initialized = true → s₂.speed_initialized = true →
      wrapping_sub16 (u16le d₁.b4 d₁.b5) s₁.prev_speed_event_time
        = wrapping_sub16 (u16le d₂.b4 d₂.b5) s₂.prev_speed_event_time →
      wrapping_sub16 (u16le d₁.b6 d₁.b7) s₁.prev_speed_revs
        = wrapping_sub16 (u16le d₂.b6 d₂.b7) s₂.prev_speed_revs →
      (decode_speed s₁ d₁ id circ).1 = (decode_speed s₂ d₂ id circ).1) := by
  constructor
  · intro s₁ s₂ d₁ d₂ id h₁ h₂ hdt hdr
    simp only [decode_cadence, h₁, h₂, hdt, hdr, Bool.not_true]
    split_ifs <;> rfl
  · intro s₁ s₂ d₁ d₂ id circ h₁ h₂ hdt hdr
    simp only [decode_speed, h₁, h₂, hdt, hdr, Bool.not_true]
    split_ifs <;> rfl

/-- Witness for C3: the spec's wrap scenario (init near 0xFFFF, then wrap)
against a wrap-free run with identical deltas (1040 counts, 1 rev). -/
theorem counter_wrap_invariance_witness :
    (decode_cadence
        (decode_cadence AntDecoder.new ⟨0, 0, 0, 0, 0xF0, 0xFF, 0xF0, 0xFF⟩ "c").2
        ⟨0, 0, 0, 0, 0x00, 0x04, 0xF1, 0xFF⟩ "c").1
      = (decode_cadence
          (decode_cadence AntDecoder.new ⟨0, 0, 0, 0, 0, 0, 0, 0⟩ "c").2
          ⟨0, 0, 0, 0, 0x10, 0x04, 0x01, 0x00⟩ "c").1 ∧
    (decode_speed
        (decode_speed AntDecoder.new ⟨0, 0, 0, 0, 0xF0, 0xFF, 0xF0, 0xFF⟩ "s" 2105).2
        ⟨0, 0, 0, 0, 0xF0, 0x03, 0xF1, 0xFF⟩ "s" 2105).1
      = (decode_speed
          (decode_speed AntDecoder.new ⟨0, 0, 0, 0, 0, 0, 0, 0⟩ "s" 2105).2
          ⟨0, 0, 0, 0, 0x00, 0x04, 0x01, 0x00⟩ "s" 2105).1 :=
  ⟨counter_wrap_invariance.1 _ _ _ _ "c" (by decide) (by decide) (by decide)
      (by decide),
   counter_wrap_invariance.2 _ _ _ _ "s" 2105 (by decide) (by decide) (by decide)
      (by decide)⟩

/-! ## C4: cadence boundary behaviour -/

/-- Counterexample to C4's boundary sentence: after initializing at zero
counters, the page with event time 1536 (bytes `00 06`) and 5 revolutions
has deltas giving rpm = 5 / (1536/1024) × 60 = exactly 200, and the
decoder DOES emit a reading (its guard is `rpm > 200`, rejecting only
strictly above 200). -/
theorem cadence_rpm_exactly_200_emits :
    (decode_cadence
        (decode_cadence AntDecoder.new ⟨0, 0, 0, 0, 0, 0, 0, 0⟩ "c").2
        ⟨0, 0, 0, 0, 0x00, 0x06, 0x05, 0x00⟩ "c").1
      = some (.Cadence 200 "c") := by
  norm_num [decode_cadence, AntDecoder.new, wrapping_sub16, u16le]

/-- C4 (amended). Post-initialization cadence emits nothing when
`rev_diff = 0` or `time_diff = 0`, and nothing when the computed rpm
exceeds 200; with nonzero deltas and rpm ≤ 200 it emits the reading (the
accepted interval is `(0, 200]`, so rpm exactly 200 is emitted). -/
theorem cadence_bounds :
    ∀ (s : AntDecoder) (d : Page8) (id : String),
      s.cadence_initialized = true →
      ((wrapping_sub16 (u16le d.b4 d.b5) s.prev_cadence_event_time = 0 ∨
        wrapping_sub16 (u16le d.b6 d.b7) s.prev_cadence_revs = 0) →
        (decode_cadence s d id).1 = none) ∧
      (wrapping_sub16 (u16le d.b4 d.b5) s.prev_cadence_event_time ≠ 0 →
       wrapping_sub16 (u16le d.b6 d.b7) s.prev_cadence_revs ≠ 0 →
       (((wrapping_sub16 (u16le d.b6 d.b7) s.prev_cadence_revs : ℚ) /
           ((wrapping_sub16 (u16le d.b4 d.b5) s.prev_cadence_event_time : ℚ)
             / 1024) * 60 > 200 →
         (decode_cadence s d id).1 = none) ∧
        ((wrapping_sub16 (u16le d.b6 d.b7) s.prev_cadence_revs : ℚ) /
           ((wrapping_sub16 (u16le d.b4 d.b5) s.prev_cadence_event_time : ℚ)
             / 1024) * 60 ≤ 200 →
         (decode_cadence s d id).1
           = some (.Cadence
               ((wrapping_sub16 (u16le d.b6 d.b7) s.prev_cadence_revs : ℚ) /
                 ((wrapping_sub16 (u16le d.b4 d.b5)
                     s.prev_cadence_event_time : ℚ) / 1024) * 60) id)))) := by
  intro s d id hinit
  refine ⟨?_, ?_⟩
  · intro hz
    simp [decode_cadence, hinit, hz]
  · intro hdt hdr
    constructor
    · intro hgt
      simp [decode_cadence, hinit, hdt, hdr, hgt]
    · intro hle
      have hnn : ¬ ((wrapping_sub16 (u16le d.b6 d.b7) s.prev_cadence_revs : ℚ) /
          ((wrapping_sub16 (u16le d.b4 d.b5) s.prev_cadence_event_time : ℚ)
            / 1024) * 60 > 200 ∨
          (wrapping_sub16 (u16le d.b6 d.b7) s.prev_cadence_revs : ℚ) /
          ((wrapping_sub16 (u16le d.b4 d.b5) s.prev_cadence_event_time : ℚ)
            / 1024) * 60 < 0) := by
        push_neg
        refine ⟨hle, by positivity⟩
      simp [decode_cadence, hinit, hdt, hdr, hnn]

/-- Witness for the amended C4: zero time delta yields nothing; a 50-rev /
1-count page (rpm ≫ 200) yields nothing; a 1-rev / 1024-count page
(60 rpm ≤ 200) yields a reading. -/
theorem cadence_bounds_witness :
    (decode_cadence
        (decode_cadence AntDecoder.new ⟨0, 0, 0, 0, 0, 0, 0, 0⟩ "c").2
        ⟨0, 0, 0, 0, 0, 0, 0, 0⟩ "c").1 = none ∧
    (decode_cadence
        (decode_cadence AntDecoder.new ⟨0, 0, 0, 0, 0, 0, 0, 0⟩ "c").2
        ⟨0, 0, 0, 0, 0x01, 0, 0x32, 0⟩ "c").1 = none ∧
    (decode_cadence
        (decode_cadence AntDecoder.new ⟨0, 0, 0, 0, 0, 0, 0, 0⟩ "c").2
        ⟨0, 0, 0, 0, 0x00, 0x04, 0x01, 0⟩ "c").1
      = some (.Cadence 60 "c") :=
  ⟨(cadence_bounds _ _ "c" (by decide)).1 (by decide),
   ((cadence_bounds _ _ "c" (by decide)).2 (by decide) (by decide)).1
     (by norm_num [decode_cadence, AntDecoder.new, wrapping_sub16, u16le]),
   (((cadence_bounds _ _ "c" (by decide)).2 (by decide) (by decide)).2
     (by norm_num [decode_cadence, AntDecoder.new, wrapping_sub16, u16le])).trans
     (by norm_num [decode_cadence, AntDecoder.new, wrapping_sub16, u16le])⟩

/-! ## BLE CSC decoder (`device/protocol.rs`) -/

/-- The previous-counter state threaded by reference into `decode_csc`
(`prev_wheel_revs : u32`, the rest `u16`). -/
structure CscState where
  prev_wheel_revs : Nat := 0
  prev_wheel_time : Nat := 0
  prev_crank_revs : Nat := 0
  prev_crank_time : Nat := 0
deriving DecidableEq, Repr

/-- Embeds `decode_csc`: flags byte, optional wheel block (u32 revs + u16 time)
then optional crank block (u16 revs + u16 time). The four `&mut`
previous-value parameters become the `CscState` in/out pair. The Rust
`offset` starts at 1 and is advanced by 6 after the wheel block whether or
not the length check passed, hence the crank offset below. -/
def decode_csc (data : List Nat) (st : CscState) (device_id : String) :
    List SensorReading × CscState :=
  if data.isEmpty then ([], st)
  else
    let flags := data.getD 0 0
    let has_wheel := flags &&& 0x01 ≠ 0
    let has_crank := flags &&& 0x02 ≠ 0
    let wheel :=
      if has_wheel ∧ data.length ≥ 1 + 6 then
        let wheel_revs := u32le (data.getD 1 0) (data.getD 2 0)
          (data.getD 3 0) (data.getD 4 0)
        let wheel_time := u16le (data.getD 5 0) (data.getD 6 0)
        let rev_diff := wrapping_sub32 wheel_revs st.prev_wheel_revs
        let time_diff := wrapping_sub16 wheel_time st.prev_wheel_time
        let st' := { st with prev_wheel_revs := wheel_revs,
                             prev_wheel_time := wheel_time }
        if time_diff > 0 ∧ rev_diff > 0 ∧ rev_diff < 100 then
          let time_secs : ℚ := (time_diff : ℚ) / 1024
          let distance_m : ℚ := (rev_diff : ℚ) * 2105 / 1000
          let kmh : ℚ := (distance_m / time_secs) * (36 / 10)
          if kmh > 0 ∧ kmh < 120 then
            ([SensorReading.Speed kmh device_id], st')
          else ([], st')
        else ([], st')
      else ([], st)
    let offset2 := if has_wheel then 7 else 1
    let crank :=
      if has_crank ∧ data.length ≥ offset2 + 4 then
        let crank_revs := u16le (data.getD offset2 0) (data.getD (offset2 + 1) 0)
        let crank_time := u16le (data.getD (offset2 + 2) 0)
          (data.getD (offset2 + 3) 0)
        let rev_diff := wrapping_sub16 crank_revs wheel.2.prev_crank_revs
        let time_diff := wrapping_sub16 crank_time wheel.2.prev_crank_time
        let st' := { wheel.2 with prev_crank_revs := crank_revs,
                                  prev_crank_time := crank_time }
        if time_diff > 0 ∧ rev_diff > 0 then
          let time_secs : ℚ := (time_diff : ℚ) / 1024
          let rpm : ℚ := ((rev_diff : ℚ) / time_secs) * 60
          if rpm > 0 ∧ rpm < 200 then
            ([SensorReading.Cadence rpm device_id], st')
          else ([], st')
        else ([], st')
      else ([], wheel.2)
    (wheel.1 ++ crank.1, crank.2)

/-! ## C9: rejected samples still become the delta baseline -/

/-- C9. After initialization, every cadence / speed call overwrites the
stored previous event-time and revolution counters with the current page's
values — also when no reading is emitted (zero delta or out-of-range
rate); the BLE CSC decoder updates its previous wheel / crank counters the
same way whenever the corresponding block is present and long enough. -/
theorem rejected_samples_update_counters :
    (∀ (s : AntDecoder) (d : Page8) (id : String),
      s.cadence_initialized = true →
      (decode_cadence s d id).2.prev_cadence_event_time = u16le d.b4 d.b5 ∧
      (decode_cadence s d id).2.prev_cadence_revs = u16le d.b6 d.b7) ∧
    (∀ (s : AntDecoder) (d : Page8) (id : String) (circ : Nat),
      s.speed_initialized = true →
      (decode_speed s d id circ).2.prev_speed_event_time = u16le d.b4 d.b5 ∧
      (decode_speed s d id circ).2.prev_speed_revs = u16le d.b6 d.b7) ∧
    (∀ (data : List Nat) (st : CscState) (id : String),
      (data.getD 0 0) &&& 0x01 ≠ 0 → data.length ≥ 7 →
      (decode_csc data st id).2.prev_wheel_revs
        = u32le (data.getD 1 0) (data.getD 2 0) (data.getD 3 0)
            (data.getD 4 0) ∧
      (decode_csc data st id).2.prev_wheel_time
        = u16le (data.getD 5 0) (data.getD 6 0)) ∧
    (∀ (data : List Nat) (st : CscState) (id : String),
      (data.getD 0 0) &&& 0x02 ≠ 0 →
      data.length ≥ (if (data.getD 0 0) &&& 0x01 ≠ 0 then 7 else 1) + 4 →
      (decode_csc data st id).2.prev_crank_revs
        = u16le (data.getD (if (data.getD 0 0) &&& 0x01 ≠ 0 then 7 else 1) 0)
            (data.getD ((if (data.getD 0 0) &&& 0x01 ≠ 0 then 7 else 1) + 1) 0) ∧
      (decode_csc data st id).2.prev_crank_time
        = u16le
            (data.getD ((if (data.getD 0 0) &&& 0x01 ≠ 0 then 7 else 1) + 2) 0)
            (data.getD ((if (data.getD 0 0) &&& 0x01 ≠ 0 then 7 else 1) + 3) 0)) := by
  refine ⟨?_, ?_, ?_, ?_⟩
  · intro s d id hinit
    simp only [decode_cadence, hinit, Bool.not_true]
    split_ifs <;> exact ⟨rfl, rfl⟩
  · intro s d id circ hinit
    simp only [decode_speed, hinit, Bool.not_true]
    split_ifs <;> exact ⟨rfl, rfl⟩
  · intro data st id hw hlen
    have hne : data.isEmpty = false := by
      cases data with
      | nil => simp at hlen
      | cons a t => rfl
    simp only [decode_csc, hne, Bool.false_eq_true, if_false]
    have hcond : ((data.getD 0 0) &&& 0x01 ≠ 0) ∧ data.length ≥ 1 + 6 := ⟨hw, hlen⟩
    simp only [if_pos hcond]
    split_ifs <;> exact ⟨rfl, rfl⟩
  · intro data st id hc hlen
    have hne : data.isEmpty = false := by
      cases data with
      | nil =>
        by_cases hb : ([] : List Nat).getD 0 0 &&& 0x01 ≠ 0 <;> simp [hb] at hlen
      | cons a t => rfl
    simp only [decode_csc, hne, Bool.false_eq_true, if_false]
    by_cases hw : (data.getD 0 0) &&& 0x01 ≠ 0
    · simp only [if_pos hw] at hlen ⊢
      have hcond : ((data.getD 0 0) &&& 0x02 ≠ 0) ∧ data.length ≥ 7 + 4 :=
        ⟨hc, hlen⟩
      simp only [hw, if_true, if_pos hcond]
      split_ifs <;> exact ⟨rfl, rfl⟩
    · simp only [if_neg hw] at hlen ⊢
      have hcond : ((data.getD 0 0) &&& 0x02 ≠ 0) ∧ data.length ≥ 1 + 4 :=
        ⟨hc, hlen⟩
      simp only [hw, if_false, if_pos hcond]
      split_ifs <;> exact ⟨rfl, rfl⟩

/-- Witness for C9: a zero-time-delta (rejected) cadence page, a rejected
speed page, and a CSC notification whose wheel and crank blocks are both
rejected (zero time deltas) — all still overwrite the stored counters. -/
theorem rejected_samples_update_counters_witness :
    ((decode_cadence ⟨0, 0, false, 0x0400, 1, true, 0, 0, false⟩
        ⟨0, 0, 0, 0, 0x00, 0x04, 0x02, 0x00⟩ "x").2.prev_cadence_event_time
      = u16le 0x00 0x04 ∧
     (decode_cadence ⟨0, 0, false, 0x0400, 1, true, 0, 0, false⟩
        ⟨0, 0, 0, 0, 0x00, 0x04, 0x02, 0x00⟩ "x").2.prev_cadence_revs
      = u16le 0x02 0x00) ∧
    ((decode_speed ⟨0, 0, false, 0, 0, false, 0x0400, 1, true⟩
        ⟨0, 0, 0, 0, 0x00, 0x04, 0x02, 0x00⟩ "x" 2105).2.prev_speed_event_time
      = u16le 0x00 0x04 ∧
     (decode_speed ⟨0, 0, false, 0, 0, false, 0x0400, 1, true⟩
        ⟨0, 0, 0, 0, 0x00, 0x04, 0x02, 0x00⟩ "x" 2105).2.prev_speed_revs
      = u16le 0x02 0x00) ∧
    ((decode_csc [0x03, 2, 0, 0, 0, 0x00, 0x04, 0x02, 0x00, 0x00, 0x04]
        ⟨1, 0x0400, 1, 0x0400⟩ "x").2.prev_wheel_revs = u32le 2 0 0 0 ∧
     (decode_csc [0x03, 2, 0, 0, 0, 0x00, 0x04, 0x02, 0x00, 0x00, 0x04]
        ⟨1, 0x0400, 1, 0x0400⟩ "x").2.prev_wheel_time = u16le 0x00 0x04) ∧
    ((decode_csc [0x03, 2, 0, 0, 0, 0x00, 0x04, 0x02, 0x00, 0x00, 0x04]
        ⟨1, 0x0400, 1, 0x0400⟩ "x").2.prev_crank_revs = u16le 0x02 0x00 ∧
     (decode_csc [0x03, 2, 0, 0, 0, 0x00, 0x04, 0x02, 0x00, 0x00, 0x04]
        ⟨1, 0x0400, 1, 0x0400⟩ "x").2.prev_crank_time = u16le 0x00 0x04) :=
  ⟨rejected_samples_update_counters.1 _ _ "x" (by decide),
   rejected_samples_update_counters.2.1 _ _ "x" 2105 (by decide),
   rejected_samples_update_counters.2.2.1 _ _ "x" (by decide) (by decide),
   rejected_samples_update_counters.2.2.2 _ _ "x" (by decide) (by decide)⟩

/-! ## C5: dominance predicate -/

theorem string_isEmpty_true_iff (s : String) : s.isEmpty = true ↔ s = "" := by
  cases s with
  | mk data =>
    cases data with
    | nil => decide
    | cons c t =>
      simp only [String.isEmpty, String.endPos, beq_iff_eq, String.ext_iff]
      have h := Char.utf8Size_pos c
      constructor
      · intro h2
        exfalso
        simp only [String.utf8ByteSize_mk, String.utf8Len_cons] at h2
        have h3 : (⟨String.utf8Len t + c.utf8Size⟩ : String.Pos).byteIdx
            = (0 : String.Pos).byteIdx := by rw [h2]
        simp at h3
        omega
      · intro h2
        simp at h2

theorem string_isEmpty_false_iff (s : String) : s.isEmpty = false ↔ s ≠ "" := by
  rw [ne_eq, ← string_isEmpty_true_iff]
  cases s.isEmpty <;> simp

/-- C5. `is_dominated(P, r)` is true exactly when `P` has an entry for
`r`'s device type, `r.device_id` is non-empty, and it differs from that
entry; consequently a `TrainerCommand` (empty device id) is never
dominated, for any primary map. -/
theorem dominance_characterization :
    (∀ (P : DeviceType → Option String) (r : SensorReading),
      is_dominated P r = true ↔
        ∃ p, P r.device_type = some p ∧
          r.device_id ≠ "" ∧ r.device_id ≠ p) ∧
    (∀ (P : DeviceType → Option String) (w : Nat) (src : CommandSource),
      is_dominated P (.TrainerCommand w src) = false) := by
  constructor
  · intro P r
    cases hP : P r.device_type with
    | none => simp [is_dominated, hP]
    | some p =>
      simp [is_dominated, hP, string_isEmpty_false_iff]
  · intro P w src
    cases hP : P (SensorReading.TrainerCommand w src).device_type with
    | none => simp [is_dominated, hP]
    | some p =>
      simp [is_dominated, hP, SensorReading.device_id,
        string_isEmpty_false_iff]

/-! ## Reconnect backoff (`device/reconnect.rs`) -/

def INITIAL_BACKOFF_MS : Nat := 2000

def MAX_BACKOFF_MS : Nat := 30000

def BACKOFF_MULTIPLIER : Nat := 2

/-- The operations that touch one device's entry in the reconnect
register. `register` is `ReconnectManager::register` (a no-op when the
device is already present); `dueRetry` is the bump performed by
`ReconnectManager::due_for_retry` on an entry whose `next_retry` instant
has passed. Entries in the `HashMap` are independent, so the register is
modelled per device; `Instant` due-ness is abstracted into which calls are
`dueRetry` steps. -/
inductive ReconnectOp where
  | register
  | dueRetry
deriving DecidableEq, Repr

/-- One operation applied to a device's stored `backoff_ms`
(`none` = not registered). -/
def reconnect_step (st : Option Nat) (op : ReconnectOp) : Option Nat :=
  match st, op with
  | none, .register => some INITIAL_BACKOFF_MS
  | some b, .register => some b
  | none, .dueRetry => none
  | some b, .dueRetry => some (min (b * BACKOFF_MULTIPLIER) MAX_BACKOFF_MS)

/-- Run a sequence of register / due-retry operations from the
unregistered state. -/
def reconnect_run (ops : List ReconnectOp) : Option Nat :=
  ops.foldl reconnect_step none

/-! ## C6: reconnect backoff invariants -/

theorem reconnect_step_bounds (st : Option Nat) (op : ReconnectOp) (b' : Nat)
    (hst : ∀ c, st = some c → 2000 ≤ c ∧ c ≤ 30000)
    (h' : reconnect_step st op = some b') : 2000 ≤ b' ∧ b' ≤ 30000 := by
  cases st with
  | none =>
    cases op
    · simp [reconnect_step, INITIAL_BACKOFF_MS] at h'
      omega
    · simp [reconnect_step] at h'
  | some c =>
    have hc := hst c rfl
    cases op <;>
      simp [reconnect_step, BACKOFF_MULTIPLIER, MAX_BACKOFF_MS] at h' <;>
      omega

theorem reconnect_foldl_bounds (ops : List ReconnectOp) :
    ∀ (st : Option Nat),
      (∀ c, st = some c → 2000 ≤ c ∧ c ≤ 30000) →
      ∀ b, ops.foldl reconnect_step st = some b → 2000 ≤ b ∧ b ≤ 30000 := by
  induction ops with
  | nil =>
    intro st hinv b hb
    exact hinv b hb
  | cons op t ih =>
    intro st hinv b hb
    refine ih (reconnect_step st op) ?_ b hb
    intro c hc
    exact reconnect_step_bounds st op c hinv hc

theorem reconnect_run_bounds (ops : List ReconnectOp) (b : Nat)
    (h : reconnect_run ops = some b) : 2000 ≤ b ∧ b ≤ 30000 :=
  reconnect_foldl_bounds ops none (by intro c hc; cases hc) b h

/-- C6. A registered device's backoff starts at 2000 ms; a due retry sets
it to `min(backoff × 2, 30000)`; across any sequence of register /
due-retry operations the stored backoff stays within [2000, 30000] and is
non-decreasing from one operation to the next. -/
theorem reconnect_backoff_invariants :
    (reconnect_step none .register = some 2000) ∧
    (∀ b, reconnect_step (some b) .dueRetry = some (min (b * 2) 30000)) ∧
    (∀ ops b, reconnect_run ops = some b → 2000 ≤ b ∧ b ≤ 30000) ∧
    (∀ ops op b b', reconnect_run ops = some b →
      reconnect_run (ops ++ [op]) = some b' → b ≤ b') := by
  refine ⟨rfl, fun b => rfl, fun ops b h => reconnect_run_bounds ops b h, ?_⟩
  intro ops op b b' hb hb'
  have hbounds := reconnect_run_bounds ops b hb
  rw [reconnect_run, List.foldl_append] at hb'
  rw [reconnect_run] at hb
  rw [hb] at hb'
  cases op with
  | register =>
    simp [List.foldl, reconnect_step] at hb'
    omega
  | dueRetry =>
    simp [List.foldl, reconnect_step, BACKOFF_MULTIPLIER, MAX_BACKOFF_MS] at hb'
    omega

/-- Witness for C6: register, then three due retries
(2000 → 4000 → 8000 → 16000). -/
theorem reconnect_backoff_invariants_witness :
    (reconnect_run [.register, .dueRetry, .dueRetry, .dueRetry] = some 16000 ∧
      2000 ≤ 16000 ∧ 16000 ≤ 30000) ∧
    (reconnect_run [.register, .dueRetry, .dueRetry, .dueRetry, .dueRetry,
        .dueRetry] = some 30000 ∧ 8000 ≤ 30000) :=
  ⟨⟨by decide,
    reconnect_backoff_invariants.2.2.1
      [.register, .dueRetry, .dueRetry, .dueRetry] 16000 (by decide)⟩,
   ⟨by decide,
    reconnect_backoff_invariants.2.2.2
      [.register, .dueRetry, .dueRetry] .dueRetry 8000 16000
      (by decide) (by decide) |>.trans (by decide)⟩⟩

/-! ## FE-C control pages (`device/fec.rs`) -/

/-- Embeds `u16::saturating_mul`. -/
def u16_saturating_mul (a b : Nat) : Nat := min (a * b) 65535

/-- Embeds `encode_target_power` (page 0x31): watts in 0.25 W resolution, i.e.
`watts.saturating_mul(4)` little-endian at bytes 6..7. -/
def encode_target_power (watts : Nat) : Page8 :=
  let power_raw := u16_saturating_mul watts 4
  ⟨0x31, 0xFF, 0xFF, 0xFF, 0xFF, 0xFF, power_raw % 256, power_raw / 256⟩

/-! ## C7: FE-C target-power encoding -/

/-- C7. For every watts value the target-power page has byte 0 = 0x31,
bytes 1..5 all 0xFF, and bytes 6..7 holding `watts × 4` (saturated to
65535) as a little-endian u16; `set_target_power(200)` sends page
`31 FF FF FF FF FF 20 03`. -/
theorem target_power_page_encoding :
    (∀ watts : Nat,
      (encode_target_power watts).b0 = 0x31 ∧
      (encode_target_power watts).b1 = 0xFF ∧
      (encode_target_power watts).b2 = 0xFF ∧
      (encode_target_power watts).b3 = 0xFF ∧
      (encode_target_power watts).b4 = 0xFF ∧
      (encode_target_power watts).b5 = 0xFF ∧
      (encode_target_power watts).b6 < 256 ∧
      u16le (encode_target_power watts).b6 (encode_target_power watts).b7
        = min (watts * 4) 65535) ∧
    encode_target_power 200 = ⟨0x31, 0xFF, 0xFF, 0xFF, 0xFF, 0xFF, 0x20, 0x03⟩ := by
  constructor
  · intro watts
    refine ⟨rfl, rfl, rfl, rfl, rfl, rfl, ?_, ?_⟩
    · exact Nat.mod_lt _ (by omega)
    · show u16_saturating_mul watts 4 % 256
          + 256 * (u16_saturating_mul watts 4 / 256) = min (watts * 4) 65535
      rw [Nat.mul_comm 256 (u16_saturating_mul watts 4 / 256),
        Nat.mod_add_div' (u16_saturating_mul watts 4) 256]
      rfl
  · rfl

/-! ## Cross-transport deduplication (`device/dedup.rs`)

String primitives (`to_lowercase`, `starts_with`, `contains`, `split`,
byte-wise `&str` ordering) are modelled on the underlying character
sequence; UTF-8 byte order agrees with code-point order, so char-level
prefix / infix / lexicographic comparisons coincide with Rust's byte-wise
ones on valid strings. -/

/-- The `DeviceInfo` struct. -/
structure DeviceInfo where
  id : String
  name : Option String
  device_type : DeviceType
  status : ConnectionStatus
  transport : Transport
  rssi : Option Int
  battery_level : Option Nat
  last_seen : Option String
  manufacturer : Option String
  model_number : Option String
  serial_number : Option String
  device_group : Option String
  in_range : Bool
deriving DecidableEq, Repr

/-- Models `str::starts_with` on character lists. -/
def list_starts_with : List Char → List Char → Bool
  | _, [] => true
  | [], _ :: _ => false
  | a :: as_, b :: bs => a == b && list_starts_with as_ bs

/-- Models `s.starts_with(pre)`. -/
def str_starts_with (s pre : String) : Bool :=
  list_starts_with s.data pre.data

/-- Models `str::contains` (substring search) on character lists. -/
def list_contains_sub : List Char → List Char → Bool
  | hay, needle =>
    list_starts_with hay needle ||
      match hay with
      | [] => false
      | _ :: rest => list_contains_sub rest needle

/-- Models `s.contains(needle)`. -/
def str_contains (s needle : String) : Bool :=
  list_contains_sub s.data needle.data

/-- Models `str::to_lowercase` char-wise. -/
def to_lowercase (s : String) : String := ⟨s.data.map Char.toLower⟩

/-- Byte-wise `&str` ordering (`ids.sort()`), as lexicographic code-point
order on the character lists. -/
def list_le : List Char → List Char → Bool
  | [], _ => true
  | _ :: _, [] => false
  | a :: as_, b :: bs =>
    decide (a.val < b.val) || (a == b && list_le as_ bs)

def str_le (a b : String) : Bool := list_le a.data b.data

/-- Embeds `manufacturers_match`: case-insensitive equality or prefix match in
either direction. -/
def manufacturers_match (a b : String) : Bool :=
  let a_lower := to_lowercase a
  let b_lower := to_lowercase b
  a_lower == b_lower || str_starts_with a_lower b_lower ||
    str_starts_with b_lower a_lower

/-- Embeds `serial_match`: both serials present, non-empty, non-"0", equal; and
when both manufacturers are present they must match. -/
def serial_match (ble ant : DeviceInfo) : Bool :=
  match ble.serial_number with
  | none => false
  | some bs =>
    if bs == "" || bs == "0" then false
    else
      match ant.serial_number with
      | none => false
      | some sa =>
        if sa == "" || sa == "0" then false
        else if bs != sa then false
        else
          match ble.manufacturer, ant.manufacturer with
          | some bm, some am => manufacturers_match bm am
          | _, _ => true

/-- Split a character list at `':'` (`str::split(':')`). -/
def split_colon : List Char → List (List Char)
  | [] => [[]]
  | c :: rest =>
    let r := split_colon rest
    if c == ':' then [] :: r
    else
      match r with
      | [] => [[c]]
      | h :: t => (c :: h) :: t

/-- Embeds `extract_ant_device_number`: segment 2 of `"ant:{type}:{number}"`. -/
def extract_ant_device_number (ant_id : String) : Option String :=
  match (split_colon ant_id.data).get? 2 with
  | some l => some ⟨l⟩
  | none => none

/-- Embeds `name_number_match`: the BLE name contains the ANT+ device number; and
when both manufacturers are present they must match. -/
def name_number_match (ble ant : DeviceInfo) : Bool :=
  match ble.name with
  | none => false
  | some n =>
    if n == "" then false
    else
      match extract_ant_device_number ant.id with
      | none => false
      | some num =>
        if !(str_contains n num) then false
        else
          match ble.manufacturer, ant.manufacturer with
          | some bm, some am => manufacturers_match bm am
          | _, _ => true

/-- Embeds `deterministic_group_id`: version-5 UUID over the sorted
`"id_a:id_b"` in the OID namespace. `Uuid::new_v5` is an external library
function (SHA-1 based); it is passed in as an arbitrary function `hash` of
the name string, which is all the verified properties depend on. -/
def deterministic_group_id (hash : String → String)
    (id_a id_b : String) : String :=
  let ids := if str_le id_a id_b then (id_a, id_b) else (id_b, id_a)
  hash (ids.1 ++ ":" ++ ids.2)

/-- The inner-loop body of `compute_device_groups` for one
`(ble, ant)` pair; the `HashMap<String, String>` is modelled as an
association list whose keys are inserted at most once. -/
def dedup_pair_step (hash : String → String) (ble ant : DeviceInfo)
    (groups : List (String × String)) : List (String × String) :=
  if ble.device_type ≠ ant.device_type then groups
  else if groups.any (fun e => e.1 == ble.id) ||
      groups.any (fun e => e.1 == ant.id) then groups
  else if serial_match ble ant || name_number_match ble ant then
    let group_id := deterministic_group_id hash ble.id ant.id
    (ant.id, group_id) :: (ble.id, group_id) :: groups
  else groups

/-- Embeds `compute_device_groups`: try every `(ble, ant)` pair of the filtered
transport lists, in order, skipping already-grouped devices. -/
def compute_device_groups (hash : String → String)
    (devices : List DeviceInfo) : List (String × String) :=
  let ble_devices := devices.filter (fun d => d.transport == Transport.Ble)
  let ant_devices := devices.filter (fun d => d.transport == Transport.AntPlus)
  ble_devices.foldl
    (fun groups ble =>
      ant_devices.foldl (fun g ant => dedup_pair_step hash ble ant g) groups)
    []

/-! ## C8: group ids are shared, order-invariant and deterministic -/

theorem list_le_total (a : List Char) :
    ∀ b, list_le a b = true ∨ list_le b a = true := by
  induction a with
  | nil => intro b; left; rfl
  | cons x xs ih =>
    intro b
    cases b with
    | nil => right; rfl
    | cons y ys =>
      simp only [list_le, Bool.or_eq_true, Bool.and_eq_true,
        decide_eq_true_eq, beq_iff_eq]
      rcases Nat.lt_trichotomy x.val.toNat y.val.toNat with h | h | h
      · exact Or.inl (Or.inl h)
      · have hxy : x = y := Char.ext (UInt32.ext h)
        rcases ih ys with h2 | h2
        · exact Or.inl (Or.inr ⟨hxy, h2⟩)
        · exact Or.inr (Or.inr ⟨hxy.symm, h2⟩)
      · exact Or.inr (Or.inl h)

theorem list_le_antisymm (a : List Char) :
    ∀ b, list_le a b = true → list_le b a = true → a = b := by
  induction a with
  | nil =>
    intro b h1 h2
    cases b with
    | nil => rfl
    | cons y ys => exact absurd h2 (by simp [list_le])
  | cons x xs ih =>
    intro b h1 h2
    cases b with
    | nil => exact absurd h1 (by simp [list_le])
    | cons y ys =>
      simp only [list_le, Bool.or_eq_true, Bool.and_eq_true,
        decide_eq_true_eq, beq_iff_eq] at h1 h2
      rcases h1 with hlt1 | ⟨hxy, hrec1⟩
      · rcases h2 with hlt2 | ⟨hyx, hrec2⟩
        · have a1 : x.val.toNat < y.val.toNat := hlt1
          have a2 : y.val.toNat < x.val.toNat := hlt2
          omega
        · subst hyx
          have a1 : y.val.toNat < y.val.toNat := hlt1
          omega
      · subst hxy
        rcases h2 with hlt2 | ⟨_, hrec2⟩
        · have a2 : x.val.toNat < x.val.toNat := hlt2
          omega
        · rw [ih ys hrec1 hrec2]

theorem deterministic_group_id_symm (hash : String → String) (a b : String) :
    deterministic_group_id hash a b = deterministic_group_id hash b a := by
  by_cases h1 : str_le a b = true
  · by_cases h2 : str_le b a = true
    · have hab : a = b := by
        have hd := list_le_antisymm a.data b.data h1 h2
        cases a
        cases b
        exact congrArg String.mk hd
      subst hab
      rfl
    · simp [deterministic_group_id, h1, h2]
  · have h2 : str_le b a = true :=
      Or.resolve_left (list_le_total a.data b.data) h1
    simp [deterministic_group_id, h1, h2]

/-- Every entry of a group map has a witnessing pair: its group id is the
deterministic id of two member ids, both mapped to that same group id. -/
def GroupsPaired (hash : String → String)
    (g : List (String × String)) : Prop :=
  ∀ e ∈ g, ∃ a b, e.2 = deterministic_group_id hash a b ∧
    (a, e.2) ∈ g ∧ (b, e.2) ∈ g

theorem dedup_pair_step_paired (hash : String → String)
    (ble ant : DeviceInfo) (g : List (String × String))
    (hg : GroupsPaired hash g) :
    GroupsPaired hash (dedup_pair_step hash ble ant g) := by
  unfold dedup_pair_step
  split_ifs with h1 h2 h3
  · exact hg
  · exact hg
  · intro e he
    rcases List.mem_cons.mp he with rfl | he2
    · exact ⟨ble.id, ant.id, rfl, by simp, by simp⟩
    · rcases List.mem_cons.mp he2 with rfl | he3
      · exact ⟨ble.id, ant.id, rfl, by simp, by simp⟩
      · obtain ⟨a, b, hgid, ha, hb⟩ := hg e he3
        exact ⟨a, b, hgid,
          List.mem_cons_of_mem _ (List.mem_cons_of_mem _ ha),
          List.mem_cons_of_mem _ (List.mem_cons_of_mem _ hb)⟩
  · exact hg

theorem dedup_inner_foldl_paired (hash : String → String) (ble : DeviceInfo)
    (ants : List DeviceInfo) :
    ∀ g, GroupsPaired hash g →
      GroupsPaired hash
        (ants.foldl (fun g2 ant => dedup_pair_step hash ble ant g2) g) := by
  induction ants with
  | nil => intro g hg; exact hg
  | cons ant t ih =>
    intro g hg
    exact ih _ (dedup_pair_step_paired hash ble ant g hg)

theorem dedup_outer_foldl_paired (hash : String → String)
    (ants : List DeviceInfo) (bles : List DeviceInfo) :
    ∀ g, GroupsPaired hash g →
      GroupsPaired hash
        (bles.foldl
          (fun groups ble =>
            ants.foldl (fun g2 ant => dedup_pair_step hash ble ant g2) groups)
          g) := by
  induction bles with
  | nil => intro g hg; exact hg
  | cons ble t ih =>
    intro g hg
    exact ih _ (dedup_inner_foldl_paired hash ble ants g hg)

theorem compute_device_groups_paired (hash : String → String)
    (devices : List DeviceInfo) :
    GroupsPaired hash (compute_device_groups hash devices) := by
  have h0 : GroupsPaired hash ([] : List (String × String)) := by
    intro e he
    simp at he
  exact dedup_outer_foldl_paired hash _ _ [] h0

/-- The spec's dedup scenario, device A (BLE trainer). -/
def wahoo_ble : DeviceInfo :=
  { id := "ble-abc", name := some "KICKR 1234",
    device_type := .FitnessTrainer, status := .Disconnected,
    transport := .Ble, rssi := none, battery_level := none,
    last_seen := none, manufacturer := some "Wahoo Fitness",
    model_number := none, serial_number := some "12345",
    device_group := none, in_range := true }

/-- The spec's dedup scenario, device B (ANT+ trainer). -/
def wahoo_ant : DeviceInfo :=
  { id := "ant:17:1234", name := some "ANT+ FitnessTrainer 1234",
    device_type := .FitnessTrainer, status := .Disconnected,
    transport := .AntPlus, rssi := none, battery_level := none,
    last_seen := none, manufacturer := some "Wahoo Fitness",
    model_number := none, serial_number := some "12345",
    device_group := none, in_range := true }

/-- C8. Group ids: (i) `deterministic_group_id` is invariant under
swapping the two member ids (sorted `"id_a:id_b"` naming); (ii) every
entry of the computed group map shares its group id with a witnessing
member pair whose deterministic id it is; (iii) on the spec's concrete
Wahoo pair both members map to the one deterministic group id. The
matcher is a pure function of its input, so running it twice on the same
input yields identical group ids; `Uuid::new_v5` enters only through the
`hash` parameter. -/
theorem dedup_group_id_deterministic :
    (∀ (hash : String → String) (a b : String),
      deterministic_group_id hash a b = deterministic_group_id hash b a) ∧
    (∀ (hash : String → String) (devices : List DeviceInfo)
        (e : String × String),
      e ∈ compute_device_groups hash devices →
      ∃ a b, e.2 = deterministic_group_id hash a b ∧
        (a, e.2) ∈ compute_device_groups hash devices ∧
        (b, e.2) ∈ compute_device_groups hash devices) ∧
    (∀ hash : String → String,
      compute_device_groups hash [wahoo_ble, wahoo_ant]
        = [("ant:17:1234", deterministic_group_id hash "ble-abc" "ant:17:1234"),
           ("ble-abc", deterministic_group_id hash "ble-abc" "ant:17:1234")]) :=
  ⟨deterministic_group_id_symm,
   fun hash devices e he => compute_device_groups_paired hash devices e he,
   fun _ => rfl⟩

/-- Witness for C8 at the spec's Wahoo pair with a concrete hash
function. -/
theorem dedup_group_id_deterministic_witness :
    (("ble-abc", deterministic_group_id (fun s => s) "ble-abc" "ant:17:1234")
        ∈ compute_device_groups (fun s => s) [wahoo_ble, wahoo_ant]) ∧
    (∃ a b,
      ("ble-abc",
        deterministic_group_id (fun s => s) "ble-abc" "ant:17:1234").2
          = deterministic_group_id (fun s => s) a b ∧
      (a, deterministic_group_id (fun s => s) "ble-abc" "ant:17:1234")
        ∈ compute_device_groups (fun s => s) [wahoo_ble, wahoo_ant] ∧
      (b, deterministic_group_id (fun s => s) "ble-abc" "ant:17:1234")
        ∈ compute_device_groups (fun s => s) [wahoo_ble, wahoo_ant]) :=
  ⟨by decide,
   dedup_group_id_deterministic.2.1 (fun s => s) [wahoo_ble, wahoo_ant]
     ("ble-abc", deterministic_group_id (fun s => s) "ble-abc" "ant:17:1234")
     (by decide)⟩

/-! ## C10: manufacturer comparison is prefix-tolerant -/

theorem list_starts_with_nil (l : List Char) :
    list_starts_with l [] = true := by
  cases l <;> rfl

theorem manufacturers_match_empty_left (s : String) :
    manufacturers_match "" s = true := by
  simp [manufacturers_match, str_starts_with, to_lowercase,
    list_starts_with_nil]

theorem manufacturers_match_empty_right (s : String) :
    manufacturers_match s "" = true := by
  simp [manufacturers_match, str_starts_with, to_lowercase,
    list_starts_with_nil]

/-- C10. `manufacturers_match` returns true whenever either lowercased
name is a prefix of the other; an empty manufacturer matches anything, so
an empty-but-present manufacturer value never prevents a serial or
name-number match whose remaining conditions hold. -/
theorem manufacturers_prefix_behavior :
    (∀ a b : String,
      (str_starts_with (to_lowercase a) (to_lowercase b) = true ∨
       str_starts_with (to_lowercase b) (to_lowercase a) = true) →
      manufacturers_match a b = true) ∧
    (∀ s : String,
      manufacturers_match "" s = true ∧ manufacturers_match s "" = true) ∧
    (∀ (ble ant : DeviceInfo) (sn : String),
      ble.serial_number = some sn → ant.serial_number = some sn →
      sn ≠ "" → sn ≠ "0" →
      (ble.manufacturer = some "" ∨ ant.manufacturer = some "") →
      serial_match ble ant = true) ∧
    (∀ (ble ant : DeviceInfo) (n num : String),
      ble.name = some n → n ≠ "" →
      extract_ant_device_number ant.id = some num →
      str_contains n num = true →
      (ble.manufacturer = some "" ∨ ant.manufacturer = some "") →
      name_number_match ble ant = true) := by
  refine ⟨?_, ?_, ?_, ?_⟩
  · intro a b h
    rcases h with h | h <;> simp [manufacturers_match, h]
  · intro s
    exact ⟨manufacturers_match_empty_left s, manufacturers_match_empty_right s⟩
  · intro ble ant sn hb ha hne h0 hm
    have e1 : (sn == "") = false := beq_eq_false_iff_ne.mpr hne
    have e2 : (sn == "0") = false := beq_eq_false_iff_ne.mpr h0
    simp only [serial_match, hb, ha, e1, e2, Bool.or_self, if_false,
      bne_self_eq_false]
    rcases hm with hm | hm
    · rw [hm]
      cases hma : ant.manufacturer with
      | none => rfl
      | some am => exact manufacturers_match_empty_left am
    · rw [hm]
      cases hmb : ble.manufacturer with
      | none => rfl
      | some bm => exact manufacturers_match_empty_right bm
  · intro ble ant n num hn hne hext hcont hm
    have e3 : (n == "") = false := beq_eq_false_iff_ne.mpr hne
    simp only [name_number_match, hn, e3, hext, hcont, Bool.not_true,
      if_false]
    rcases hm with hm | hm
    · rw [hm]
      cases hma : ant.manufacturer with
      | none => rfl
      | some am => exact manufacturers_match_empty_left am
    · rw [hm]
      cases hmb : ble.manufacturer with
      | none => rfl
      | some bm => exact manufacturers_match_empty_right bm

/-- A BLE trainer reporting an empty (but present) manufacturer string. -/
def blank_mfr_ble : DeviceInfo :=
  { id := "ble-blank", name := some "KICKR 1234",
    device_type := .FitnessTrainer, status := .Disconnected,
    transport := .Ble, rssi := none, battery_level := none,
    last_seen := none, manufacturer := some "",
    model_number := none, serial_number := some "12345",
    device_group := none, in_range := true }

/-- An ANT+ trainer with a manufacturer name and matching serial. -/
def named_mfr_ant : DeviceInfo :=
  { id := "ant:17:1234", name := some "ANT+ FitnessTrainer 1234",
    device_type := .FitnessTrainer, status := .Disconnected,
    transport := .AntPlus, rssi := none, battery_level := none,
    last_seen := none, manufacturer := some "Wahoo Fitness",
    model_number := none, serial_number := some "12345",
    device_group := none, in_range := true }

/-- Witness for C10: "Wahoo" is a prefix of "wahoo fitness" after
lowercasing; and an empty-manufacturer BLE device still serial- and
name-number-matches the ANT+ device. -/
theorem manufacturers_prefix_behavior_witness :
    manufacturers_match "Wahoo Fitness" "Wahoo" = true ∧
    serial_match blank_mfr_ble named_mfr_ant = true ∧
    name_number_match blank_mfr_ble named_mfr_ant = true :=
  ⟨manufacturers_prefix_behavior.1 "Wahoo Fitness" "Wahoo"
     (Or.inl (by decide)),
   manufacturers_prefix_behavior.2.2.1 blank_mfr_ble named_mfr_ant "12345"
     rfl rfl (by decide) (by decide) (Or.inl rfl),
   manufacturers_prefix_behavior.2.2.2 blank_mfr_ble named_mfr_ant
     "KICKR 1234" "1234" rfl (by decide) (by decide) (by decide)
     (Or.inl rfl)⟩
